import Mathlib

/-!
Shallow embedding of the BESS sizing calculator (`app.py`).

Numeric values are modelled over `ℚ` (the program treats its floats as exact
decimal quantities; every constant in the source is an exact decimal).  The
electrical deriver, which uses `sqrt 3`, is modelled over `ℝ`.
`math.ceil` is `Int.ceil`; Python integer results are `ℤ`.
-/

/-- `round_up_to_4_dec` (app.py 9-14): `math.ceil(x * 10_000) / 10_000`.
The `None` guard is dropped: the embedding is over `ℚ`, not `Option ℚ`. -/
def round_up_to_4_dec (x : ℚ) : ℚ := (Int.ceil (x * 10000) : ℚ) / 10000

/-- The PCS size table (app.py 23). -/
def pcs_sizes : List ℚ := [1.25, 1.50, 1.75, 2.0, 2.5, 5.0]

/-- First element `s` of the list with `p ≤ s`, mirroring the
`for s in ...: if p <= s: return s` loops of app.py 24-26 and 36-38. -/
def firstGE (p : ℚ) : List ℚ → Option ℚ
  | [] => none
  | s :: rest => if p ≤ s then some s else firstGE p rest

/-- `select_pcs_rating` (app.py 17-27): first size `≥` the container power,
falling back to `pcs_sizes[-1] = 5.0` when the loop falls through. -/
def select_pcs_rating (container_power_mw : ℚ) : ℚ :=
  match firstGE container_power_mw pcs_sizes with
  | some s => s
  | none => 5.0

/-- The transformer MVA candidate table (app.py 35). -/
def transformer_candidates : List ℚ := [1.25, 1.5, 1.75, 2.0, 2.5, 3.5, 5.0]

/-- Python `str.rstrip` with a single strip character. -/
def rstrip (s : String) (c : Char) : String :=
  String.mk ((s.data.reverse.dropWhile (fun ch => ch = c)).reverse)

/-- Python `f"{c:.2f}"` for the transformer candidates (each is a positive
exact multiple of 0.01, so the format is exact: integer part, a dot, and the
two-digit fractional part). -/
def format2dec (c : ℚ) : String :=
  let n : ℤ := Int.floor (c * 100)
  let ip := n / 100
  let fp := (n % 100).toNat
  toString ip ++ "." ++ (if fp < 10 then "0" ++ toString fp else toString fp)

/-- The label built at app.py 38-39:
`f"{c:.2f}MVA".rstrip("0").rstrip(".") + "MVA"` — note that `"MVA"` sits
inside the formatted string before the strips, exactly as in the source. -/
def mvaLabel (c : ℚ) : String :=
  rstrip (rstrip (format2dec c ++ "MVA") '0') '.' ++ "MVA"

/-- `select_transformer_mva` (app.py 30-39). -/
def select_transformer_mva (container_power_mw : ℚ) : String :=
  match firstGE container_power_mw transformer_candidates with
  | some c => mvaLabel c
  | none => mvaLabel 5.0

/-- `initial_mwh = load_mw * discharge_h` (app.py 198). -/
def initial_mwh (load_mw discharge_h : ℚ) : ℚ := load_mw * discharge_h

/-- `after_dod_mwh` (app.py 200). -/
def after_dod_mwh (load_mw discharge_h dod_percent : ℚ) : ℚ :=
  round_up_to_4_dec (initial_mwh load_mw discharge_h / (dod_percent / 100))

/-- `after_rte_mwh` (app.py 201). -/
def after_rte_mwh (load_mw discharge_h dod_percent rte_percent : ℚ) : ℚ :=
  round_up_to_4_dec (after_dod_mwh load_mw discharge_h dod_percent / (rte_percent / 100))

/-- `after_other_eff_mwh` (app.py 202). -/
def after_other_eff_mwh (load_mw discharge_h dod_percent rte_percent other_eff_percent : ℚ) : ℚ :=
  round_up_to_4_dec
    (after_rte_mwh load_mw discharge_h dod_percent rte_percent / (other_eff_percent / 100))

/-- `required_bess_mwh = after_other_eff_mwh` (app.py 204). -/
def required_bess_mwh (load_mw discharge_h dod_percent rte_percent other_eff_percent : ℚ) : ℚ :=
  after_other_eff_mwh load_mw discharge_h dod_percent rte_percent other_eff_percent

/-- The fixed battery catalog capacities in kWh (app.py 213-217). -/
def battery_capacities : List ℚ := [261, 3727.36, 5015.9]

/-- `units` per catalog row (app.py 224-227):
`ceil(required_bess_mwh * 1000 / cap_kwh)` when `required_bess_mwh > 0`, else 0. -/
def units (required_bess cap_kwh : ℚ) : ℤ :=
  if 0 < required_bess then Int.ceil (required_bess * 1000 / cap_kwh) else 0

/-- `total_mwh = units * cap_kwh / 1000` (app.py 229). -/
def total_mwh (required_bess cap_kwh : ℚ) : ℚ :=
  (units required_bess cap_kwh : ℚ) * cap_kwh / 1000

/-- `oversize_mwh = total_mwh - required_bess_mwh` (app.py 230). -/
def oversize_mwh (required_bess cap_kwh : ℚ) : ℚ :=
  total_mwh required_bess cap_kwh - required_bess

/-- `oversize_pct` (app.py 231-235); the Python truthiness test
`required_bess_mwh and required_bess_mwh > 0` is equivalent to `0 < required_bess`. -/
def oversize_pct (required_bess cap_kwh : ℚ) : ℚ :=
  if 0 < required_bess then oversize_mwh required_bess cap_kwh / required_bess * 100 else 0

/-- `container_power_mw = customer_c_rate * cap_kwh / 1000` (app.py 238). -/
def container_power_mw (c_rate cap_kwh : ℚ) : ℚ := c_rate * cap_kwh / 1000

/-- `pcs_quantity` (app.py 240): `ceil(required_discharge_power_mw / pcs_rating_mw)`
guarded by `pcs_rating_mw > 0`, else 0. -/
def pcs_quantity (required_discharge_power_mw pcs_rating_mw : ℚ) : ℤ :=
  if 0 < pcs_rating_mw then Int.ceil (required_discharge_power_mw / pcs_rating_mw) else 0

/-- pandas `Series.idxmin` accumulator: index of the first strict minimum,
scanning positions `i, i+1, ...` with current best `(bestIdx, bestVal)`. -/
def idxminFrom (bestIdx : ℕ) (bestVal : ℚ) (i : ℕ) : List ℚ → ℕ
  | [] => bestIdx
  | x :: xs =>
      if x < bestVal then idxminFrom i x (i + 1) xs else idxminFrom bestIdx bestVal (i + 1) xs

/-- pandas `Series.idxmin` over a default integer index: position of the first
occurrence of the minimum. -/
def idxmin : List ℚ → Option ℕ
  | [] => none
  | x :: xs => some (idxminFrom 0 x 1 xs)

/-- The per-row values `df_bess["Oversizing vs required (MWh)"].clip(lower=0)`
(app.py 263): oversizing clamped below at 0, in catalog order. -/
def clipped_oversizes (required_bess : ℚ) : List ℚ :=
  battery_capacities.map (fun cap => max (oversize_mwh required_bess cap) 0)

/-- `best_idx` (app.py 261-263): the truthiness test
`required_bess_mwh and required_bess_mwh > 0` reduces to `0 < required_bess`. -/
def best_idx (required_bess : ℚ) : Option ℕ :=
  if 0 < required_bess then idxmin (clipped_oversizes required_bess) else none

/-- `current_amps` (app.py 269-272). -/
noncomputable def current_amps (required_discharge_power_mw voltage_kv power_factor : ℝ) : ℝ :=
  if 0 < voltage_kv ∧ 0 < power_factor then
    required_discharge_power_mw * 1000000 / (Real.sqrt 3 * voltage_kv * 1000 * power_factor)
  else 0

/-- `breaker_amps = current_amps * 1.25` (app.py 274). -/
noncomputable def breaker_amps (required_discharge_power_mw voltage_kv power_factor : ℝ) : ℝ :=
  current_amps required_discharge_power_mw voltage_kv power_factor * 1.25

/-! ## Helper lemmas -/

/-- Rounding up never decreases a value. -/
theorem le_round_up (x : ℚ) : x ≤ round_up_to_4_dec x := by
  have h := Int.le_ceil (x * 10000)
  rw [round_up_to_4_dec]
  linarith

/-- Rounding up adds strictly less than one ten-thousandth. -/
theorem round_up_lt (x : ℚ) : round_up_to_4_dec x < x + 1 / 10000 := by
  have h := Int.ceil_lt_add_one (x * 10000)
  rw [round_up_to_4_dec]
  linarith

/-- Rounding up preserves non-negativity. -/
theorem round_up_nonneg {x : ℚ} (hx : 0 ≤ x) : 0 ≤ round_up_to_4_dec x :=
  le_trans hx (le_round_up x)

/-- Dividing a non-negative value by a factor in `(0, 1]` never decreases it. -/
theorem le_div_of_le_one {a d : ℚ} (ha : 0 ≤ a) (hd0 : 0 < d) (hd1 : d ≤ 1) : a ≤ a / d := by
  rw [le_div_iff₀ hd0]
  nlinarith

/-- Concrete evaluation of `round_up_to_4_dec` by bracketing the ceiling. -/
theorem round_up_eval (x : ℚ) (n : ℤ) (h1 : (n : ℚ) - 1 < x * 10000) (h2 : x * 10000 ≤ n) :
    round_up_to_4_dec x = (n : ℚ) / 10000 := by
  rw [round_up_to_4_dec, Int.ceil_eq_iff.mpr ⟨h1, h2⟩]

/-! ## Claim theorems -/

/-- C7: for every non-negative `x`, `round_up_to_4_dec x ≥ x`,
`round_up_to_4_dec x - x < 0.0001`, the result is a multiple of `0.0001`, it
is the smallest such multiple that is `≥ x`, and every exact multiple of
`0.0001` maps to itself. -/
theorem C7_round_up_props (x : ℚ) (hx : 0 ≤ x) :
    x ≤ round_up_to_4_dec x ∧
    round_up_to_4_dec x - x < 1 / 10000 ∧
    (∃ n : ℤ, round_up_to_4_dec x = (n : ℚ) / 10000) ∧
    (∀ y : ℚ, (∃ n : ℤ, y = (n : ℚ) / 10000) → x ≤ y → round_up_to_4_dec x ≤ y) ∧
    ((∃ n : ℤ, x = (n : ℚ) / 10000) → round_up_to_4_dec x = x) := by
  refine ⟨le_round_up x, by have := round_up_lt x; linarith, ⟨⌈x * 10000⌉, rfl⟩, ?_, ?_⟩
  · rintro y ⟨n, rfl⟩ hxy
    have hxn : x * 10000 ≤ (n : ℚ) := by linarith
    have hc : ⌈x * 10000⌉ ≤ n := Int.ceil_le.mpr hxn
    have hcq : ((⌈x * 10000⌉ : ℤ) : ℚ) ≤ (n : ℚ) := by exact_mod_cast hc
    rw [round_up_to_4_dec]
    linarith
  · rintro ⟨n, rfl⟩
    rw [round_up_to_4_dec]
    have hmul : ((n : ℚ) / 10000) * 10000 = (n : ℚ) := by field_simp
    rw [hmul, Int.ceil_intCast]

/-- C7 witness: at `x = 1/2` (an exact multiple of 0.0001) the rounding is the
identity and the hypotheses of `C7_round_up_props` hold. -/
theorem C7_round_up_props_witness :
    (0 : ℚ) ≤ 1 / 2 ∧ round_up_to_4_dec (1 / 2) = 1 / 2 :=
  ⟨by norm_num, (C7_round_up_props (1 / 2) (by norm_num)).2.2.2.2 ⟨5000, by norm_num⟩⟩

/-- C2: evaluation at the failing input `x = -0.00015`.  The code returns
`-0.0001`, which is strictly greater than `x` (rounding toward zero in
magnitude), whereas spreadsheet `ROUNDUP(-0.00015, 4) = -0.0002` rounds away
from zero.  So the code does not match ROUNDUP semantics for negative inputs,
contradicting its own docstring (`"Mimic Excel ROUNDUP(...,4) behaviour"`). -/
theorem C2_round_up_negative_eval :
    round_up_to_4_dec (-(3 / 20000)) = -(1 / 10000) ∧
    (-(3 / 20000) : ℚ) < -(1 / 10000) := by
  constructor
  · have h : Int.ceil ((-(3 / 20000) : ℚ) * 10000) = -1 := by
      rw [Int.ceil_eq_iff]
      norm_num
    rw [round_up_to_4_dec, h]
    norm_num
  · norm_num

/-- C1: evaluation of the transformer label at `container_power_mw = 2`.
The source builds `f"{c:.2f}MVA".rstrip("0").rstrip(".") + "MVA"`: since the
formatted string ends in `"MVA"`, both strips are no-ops and `"MVA"` is
appended a second time, so the label is `"2.00MVAMVA"` — not the trimmed
`"2MVA"`. -/
theorem C1_transformer_label_eval : select_transformer_mva 2 = "2.00MVAMVA" := by
  have hfloor : Int.floor ((2.0 : ℚ) * 100) = 200 := by
    rw [Int.floor_eq_iff]
    norm_num
  rw [select_transformer_mva, transformer_candidates, firstGE, if_neg (by norm_num), firstGE,
    if_neg (by norm_num), firstGE, if_neg (by norm_num), firstGE, if_pos (by norm_num)]
  show mvaLabel 2.0 = "2.00MVAMVA"
  rw [mvaLabel, format2dec]
  simp only [hfloor]
  rfl

/-- Case analysis of `select_pcs_rating` over the intervals cut out by the
size table. -/
theorem pcs_rating_cases (p : ℚ) :
    (p ≤ 1.25 ∧ select_pcs_rating p = 1.25) ∨
    (1.25 < p ∧ p ≤ 1.50 ∧ select_pcs_rating p = 1.50) ∨
    (1.50 < p ∧ p ≤ 1.75 ∧ select_pcs_rating p = 1.75) ∨
    (1.75 < p ∧ p ≤ 2.0 ∧ select_pcs_rating p = 2.0) ∨
    (2.0 < p ∧ p ≤ 2.5 ∧ select_pcs_rating p = 2.5) ∨
    (2.5 < p ∧ p ≤ 5.0 ∧ select_pcs_rating p = 5.0) ∨
    (5.0 < p ∧ select_pcs_rating p = 5.0) := by
  by_cases h1 : p ≤ 1.25
  · exact Or.inl ⟨h1, by rw [select_pcs_rating, pcs_sizes, firstGE, if_pos h1]⟩
  by_cases h2 : p ≤ 1.50
  · exact Or.inr (Or.inl ⟨not_le.mp h1, h2,
      by rw [select_pcs_rating, pcs_sizes, firstGE, if_neg h1, firstGE, if_pos h2]⟩)
  by_cases h3 : p ≤ 1.75
  · exact Or.inr (Or.inr (Or.inl ⟨not_le.mp h2, h3,
      by rw [select_pcs_rating, pcs_sizes, firstGE, if_neg h1, firstGE, if_neg h2, firstGE,
        if_pos h3]⟩))
  by_cases h4 : p ≤ 2.0
  · exact Or.inr (Or.inr (Or.inr (Or.inl ⟨not_le.mp h3, h4,
      by rw [select_pcs_rating, pcs_sizes, firstGE, if_neg h1, firstGE, if_neg h2, firstGE,
        if_neg h3, firstGE, if_pos h4]⟩)))
  by_cases h5 : p ≤ 2.5
  · exact Or.inr (Or.inr (Or.inr (Or.inr (Or.inl ⟨not_le.mp h4, h5,
      by rw [select_pcs_rating, pcs_sizes, firstGE, if_neg h1, firstGE, if_neg h2, firstGE,
        if_neg h3, firstGE, if_neg h4, firstGE, if_pos h5]⟩))))
  by_cases h6 : p ≤ 5.0
  · exact Or.inr (Or.inr (Or.inr (Or.inr (Or.inr (Or.inl ⟨not_le.mp h5, h6,
      by rw [select_pcs_rating, pcs_sizes, firstGE, if_neg h1, firstGE, if_neg h2, firstGE,
        if_neg h3, firstGE, if_neg h4, firstGE, if_neg h5, firstGE, if_pos h6]⟩)))))
  · exact Or.inr (Or.inr (Or.inr (Or.inr (Or.inr (Or.inr ⟨not_le.mp h6,
      by rw [select_pcs_rating, pcs_sizes, firstGE, if_neg h1, firstGE, if_neg h2, firstGE,
        if_neg h3, firstGE, if_neg h4, firstGE, if_neg h5, firstGE, if_neg h6, firstGE]⟩)))))

/-- C6: `select_pcs_rating` returns the smallest table value `≥` its argument
when one exists, returns the largest value `5.0` when none qualifies, and in
particular maps `1.25 ↦ 1.25`, `1.26 ↦ 1.5`, `6 ↦ 5`. -/
theorem C6_select_pcs_rating_spec (p : ℚ) :
    ((∃ s ∈ pcs_sizes, p ≤ s) →
      select_pcs_rating p ∈ pcs_sizes ∧ p ≤ select_pcs_rating p ∧
        ∀ s ∈ pcs_sizes, p ≤ s → select_pcs_rating p ≤ s) ∧
    ((∀ s ∈ pcs_sizes, s < p) → select_pcs_rating p = 5.0) ∧
    select_pcs_rating 1.25 = 1.25 ∧ select_pcs_rating 1.26 = 1.5 ∧
    select_pcs_rating 6 = 5 := by
  have hc := pcs_rating_cases p
  refine ⟨?_, ?_, ?_, ?_, ?_⟩
  · intro hex
    rcases hc with ⟨h, hf⟩ | ⟨h0, h, hf⟩ | ⟨h0, h, hf⟩ | ⟨h0, h, hf⟩ | ⟨h0, h, hf⟩ |
      ⟨h0, h, hf⟩ | ⟨h0, hf⟩
    · exact ⟨by rw [hf]; norm_num [pcs_sizes], by rw [hf]; exact h,
        fun s hs hps => by rw [hf]; fin_cases hs <;> norm_num⟩
    · exact ⟨by rw [hf]; norm_num [pcs_sizes], by rw [hf]; exact h,
        fun s hs hps => by rw [hf]; fin_cases hs <;> linarith⟩
    · exact ⟨by rw [hf]; norm_num [pcs_sizes], by rw [hf]; exact h,
        fun s hs hps => by rw [hf]; fin_cases hs <;> linarith⟩
    · exact ⟨by rw [hf]; norm_num [pcs_sizes], by rw [hf]; exact h,
        fun s hs hps => by rw [hf]; fin_cases hs <;> linarith⟩
    · exact ⟨by rw [hf]; norm_num [pcs_sizes], by rw [hf]; exact h,
        fun s hs hps => by rw [hf]; fin_cases hs <;> linarith⟩
    · exact ⟨by rw [hf]; norm_num [pcs_sizes], by rw [hf]; exact h,
        fun s hs hps => by rw [hf]; fin_cases hs <;> linarith⟩
    · obtain ⟨s, hs, hps⟩ := hex
      exfalso
      fin_cases hs <;> linarith
  · intro hall
    rcases hc with ⟨h, hf⟩ | ⟨h0, h, hf⟩ | ⟨h0, h, hf⟩ | ⟨h0, h, hf⟩ | ⟨h0, h, hf⟩ |
      ⟨h0, h, hf⟩ | ⟨h0, hf⟩
    · have := hall 1.25 (by norm_num [pcs_sizes])
      linarith
    · have := hall 1.50 (by norm_num [pcs_sizes])
      linarith
    · have := hall 1.75 (by norm_num [pcs_sizes])
      linarith
    · have := hall 2.0 (by norm_num [pcs_sizes])
      linarith
    · have := hall 2.5 (by norm_num [pcs_sizes])
      linarith
    · exact hf
    · exact hf
  · rw [select_pcs_rating, pcs_sizes, firstGE, if_pos (by norm_num)]
  · rw [select_pcs_rating, pcs_sizes, firstGE, if_neg (by norm_num), firstGE,
      if_pos (by norm_num)]
    norm_num
  · rw [select_pcs_rating, pcs_sizes, firstGE, if_neg (by norm_num), firstGE,
      if_neg (by norm_num), firstGE, if_neg (by norm_num), firstGE, if_neg (by norm_num),
      firstGE, if_neg (by norm_num), firstGE, if_neg (by norm_num), firstGE]
    norm_num

/-- C6 witness: at `p = 1.3` a qualifying size exists, the selected rating is
a table member `≥ 1.3`, and it is `≤` the qualifying size `1.5`. -/
theorem C6_select_pcs_rating_witness :
    select_pcs_rating 1.3 ∈ pcs_sizes ∧ (1.3 : ℚ) ≤ select_pcs_rating 1.3 ∧
      select_pcs_rating 1.3 ≤ 1.5 := by
  have h := (C6_select_pcs_rating_spec 1.3).1 ⟨1.5, by norm_num [pcs_sizes], by norm_num⟩
  exact ⟨h.1, h.2.1, h.2.2 1.5 (by norm_num [pcs_sizes]) (by norm_num)⟩

/-- C10: `select_pcs_rating` always lands in the size table, hence is at
least `1.25 > 0`; therefore the `pcs_rating_mw <= 0` guard of `pcs_quantity`
is unreachable and the quantity is always the ceiling of
`required_discharge_power_mw / pcs_rating_mw`. -/
theorem C10_pcs_guard_unreachable (p pdis : ℚ) :
    select_pcs_rating p ∈ pcs_sizes ∧
    (5 / 4 : ℚ) ≤ select_pcs_rating p ∧
    0 < select_pcs_rating p ∧
    pcs_quantity pdis (select_pcs_rating p) = Int.ceil (pdis / select_pcs_rating p) := by
  have hc := pcs_rating_cases p
  have hm : select_pcs_rating p ∈ pcs_sizes ∧ (5 / 4 : ℚ) ≤ select_pcs_rating p := by
    rcases hc with ⟨_, hf⟩ | ⟨_, _, hf⟩ | ⟨_, _, hf⟩ | ⟨_, _, hf⟩ | ⟨_, _, hf⟩ |
      ⟨_, _, hf⟩ | ⟨_, hf⟩ <;>
      rw [hf] <;> exact ⟨by norm_num [pcs_sizes], by norm_num⟩
  have hpos : 0 < select_pcs_rating p := lt_of_lt_of_le (by norm_num) hm.2
  exact ⟨hm.1, hm.2, hpos, by rw [pcs_quantity, if_pos hpos]⟩

/-- When the requirement is positive, the installed total meets it. -/
theorem le_total_mwh {req cap : ℚ} (hreq : 0 < req) (hc : 0 < cap) :
    req ≤ total_mwh req cap := by
  have h1 : req * 1000 / cap ≤ ((⌈req * 1000 / cap⌉ : ℤ) : ℚ) := Int.le_ceil _
  have h2 : (req * 1000 / cap) * cap = req * 1000 := div_mul_cancel₀ _ hc.ne'
  have h3 : (req * 1000 / cap) * cap ≤ ((⌈req * 1000 / cap⌉ : ℤ) : ℚ) * cap :=
    mul_le_mul_of_nonneg_right h1 hc.le
  rw [total_mwh, units, if_pos hreq]
  linarith

/-- C3: in every catalog row, `total_mwh = units * cap / 1000`; for a positive
requirement the unit count is the least non-negative integer whose total meets
the requirement, and for a non-positive requirement it is zero. -/
theorem C3_units_minimal (req cap : ℚ) (hcap : cap ∈ battery_capacities) :
    total_mwh req cap = (units req cap : ℚ) * cap / 1000 ∧
    (0 < req →
      0 ≤ units req cap ∧
      req ≤ (units req cap : ℚ) * cap / 1000 ∧
      ∀ m : ℤ, 0 ≤ m → req ≤ (m : ℚ) * cap / 1000 → units req cap ≤ m) ∧
    (req ≤ 0 → units req cap = 0) := by
  have hc : 0 < cap := by fin_cases hcap <;> norm_num
  refine ⟨rfl, fun hreq => ⟨?_, ?_, ?_⟩, fun hle => ?_⟩
  · rw [units, if_pos hreq]
    exact Int.ceil_nonneg (by positivity)
  · have := le_total_mwh hreq hc
    rwa [total_mwh] at this
  · intro m hm hreqm
    rw [units, if_pos hreq]
    refine Int.ceil_le.mpr ?_
    rw [div_le_iff₀ hc]
    linarith
  · rw [units, if_neg (not_lt.mpr hle)]

/-- C3 witness: at `req = 10`, `cap = 261` the row uses 39 units, the total
`10.179` covers the requirement, and 39 is minimal among integers covering it. -/
theorem C3_units_minimal_witness :
    total_mwh 10 261 = (units 10 261 : ℚ) * 261 / 1000 ∧
    (10 : ℚ) ≤ (units 10 261 : ℚ) * 261 / 1000 ∧
    units 10 261 ≤ 39 := by
  have h := C3_units_minimal 10 261 (by norm_num [battery_capacities])
  exact ⟨h.1, (h.2.1 (by norm_num)).2.1,
    (h.2.1 (by norm_num)).2.2 39 (by norm_num) (by norm_num)⟩

/-- One capacity-chain step (divide by a percentage `≤ 100`, round up) never
decreases a non-negative value. -/
theorem chain_step_le {a p : ℚ} (ha : 0 ≤ a) (hp0 : 0 < p) (hp1 : p ≤ 100) :
    a ≤ round_up_to_4_dec (a / (p / 100)) := by
  have hd0 : 0 < p / 100 := by linarith
  have hd1 : p / 100 ≤ 1 := by linarith
  exact le_trans (le_div_of_le_one ha hd0 hd1) (le_round_up _)

/-- C5: with non-negative load and duration and all three percentages in
`(0, 100]`, each step of the capacity chain is monotone:
`after_dod ≥ initial`, `after_rte ≥ after_dod`,
`after_other_eff ≥ after_rte`. -/
theorem C5_capacity_chain_monotone (load_mw discharge_h dod rte oth : ℚ)
    (hload : 0 ≤ load_mw) (hh : 0 ≤ discharge_h)
    (hdod0 : 0 < dod) (hdod1 : dod ≤ 100)
    (hrte0 : 0 < rte) (hrte1 : rte ≤ 100)
    (hoth0 : 0 < oth) (hoth1 : oth ≤ 100) :
    initial_mwh load_mw discharge_h ≤ after_dod_mwh load_mw discharge_h dod ∧
    after_dod_mwh load_mw discharge_h dod ≤ after_rte_mwh load_mw discharge_h dod rte ∧
    after_rte_mwh load_mw discharge_h dod rte ≤
      after_other_eff_mwh load_mw discharge_h dod rte oth := by
  have h0 : 0 ≤ initial_mwh load_mw discharge_h := mul_nonneg hload hh
  have h1 : initial_mwh load_mw discharge_h ≤ after_dod_mwh load_mw discharge_h dod :=
    chain_step_le h0 hdod0 hdod1
  have h1n : 0 ≤ after_dod_mwh load_mw discharge_h dod := le_trans h0 h1
  have h2 : after_dod_mwh load_mw discharge_h dod ≤
      after_rte_mwh load_mw discharge_h dod rte := chain_step_le h1n hrte0 hrte1
  have h2n : 0 ≤ after_rte_mwh load_mw discharge_h dod rte := le_trans h1n h2
  exact ⟨h1, h2, chain_step_le h2n hoth0 hoth1⟩

/-- C5 witness: the chain inequalities at
`load = 1, h = 1, dod = 50, rte = 50, oth = 100`. -/
theorem C5_capacity_chain_monotone_witness :
    initial_mwh 1 1 ≤ after_dod_mwh 1 1 50 ∧
    after_dod_mwh 1 1 50 ≤ after_rte_mwh 1 1 50 50 ∧
    after_rte_mwh 1 1 50 50 ≤ after_other_eff_mwh 1 1 50 50 100 :=
  C5_capacity_chain_monotone 1 1 50 50 100 (by norm_num) (by norm_num) (by norm_num)
    (by norm_num) (by norm_num) (by norm_num) (by norm_num) (by norm_num)

/-- The chain output (required BESS capacity) is non-negative for in-range
inputs. -/
theorem required_bess_nonneg {load_mw discharge_h dod rte oth : ℚ}
    (hload : 0 ≤ load_mw) (hh : 0 ≤ discharge_h)
    (hdod : 0 < dod) (hrte : 0 < rte) (hoth : 0 < oth) :
    0 ≤ required_bess_mwh load_mw discharge_h dod rte oth := by
  have h0 : 0 ≤ initial_mwh load_mw discharge_h := mul_nonneg hload hh
  have h1 : 0 ≤ after_dod_mwh load_mw discharge_h dod := by
    rw [after_dod_mwh]
    exact round_up_nonneg (div_nonneg h0 (by linarith))
  have h2 : 0 ≤ after_rte_mwh load_mw discharge_h dod rte := by
    rw [after_rte_mwh]
    exact round_up_nonneg (div_nonneg h1 (by linarith))
  rw [required_bess_mwh, after_other_eff_mwh]
  exact round_up_nonneg (div_nonneg h2 (by linarith))

/-- C9: for any catalog row fed by the capacity chain on in-range inputs, a
positive requirement yields `0 ≤ oversize < cap/1000` (never negative, never a
whole unit), and a non-positive requirement yields zero oversizing and zero
oversizing percentage. -/
theorem C9_oversize_bounds (load_mw discharge_h dod rte oth cap : ℚ)
    (hload : 0 ≤ load_mw) (hh : 0 ≤ discharge_h)
    (hdod : 0 < dod) (hrte : 0 < rte) (hoth : 0 < oth)
    (hcap : cap ∈ battery_capacities) :
    (0 < required_bess_mwh load_mw discharge_h dod rte oth →
      0 ≤ oversize_mwh (required_bess_mwh load_mw discharge_h dod rte oth) cap ∧
      oversize_mwh (required_bess_mwh load_mw discharge_h dod rte oth) cap < cap / 1000) ∧
    (required_bess_mwh load_mw discharge_h dod rte oth ≤ 0 →
      oversize_mwh (required_bess_mwh load_mw discharge_h dod rte oth) cap = 0 ∧
      oversize_pct (required_bess_mwh load_mw discharge_h dod rte oth) cap = 0) := by
  have hc : 0 < cap := by fin_cases hcap <;> norm_num
  have hnn := required_bess_nonneg hload hh hdod hrte hoth
  constructor
  · intro hreq
    constructor
    · rw [oversize_mwh]
      have := le_total_mwh hreq hc
      linarith
    · set req := required_bess_mwh load_mw discharge_h dod rte oth with hreqdef
      have hceil : ((⌈req * 1000 / cap⌉ : ℤ) : ℚ) < req * 1000 / cap + 1 :=
        Int.ceil_lt_add_one _
      have hmul : (req * 1000 / cap) * cap = req * 1000 := div_mul_cancel₀ _ hc.ne'
      have h2 : ((⌈req * 1000 / cap⌉ : ℤ) : ℚ) * cap < req * 1000 + cap := by
        have := mul_lt_mul_of_pos_right hceil hc
        rw [add_mul, one_mul] at this
        linarith
      rw [oversize_mwh, total_mwh, units, if_pos hreq]
      linarith
  · intro hle
    have hz : required_bess_mwh load_mw discharge_h dod rte oth = 0 := le_antisymm hle hnn
    rw [hz]
    constructor
    · rw [oversize_mwh, total_mwh, units, if_neg (lt_irrefl 0)]
      norm_num
    · rw [oversize_pct, if_neg (lt_irrefl 0)]

/-- C9 witness: at `load = 1, h = 1, dod = rte = oth = 100, cap = 261` the
requirement is `1` MWh and the oversizing lies in `[0, 0.261)`. -/
theorem C9_oversize_bounds_witness :
    0 ≤ oversize_mwh (required_bess_mwh 1 1 100 100 100) 261 ∧
    oversize_mwh (required_bess_mwh 1 1 100 100 100) 261 < 261 / 1000 := by
  have hreq : required_bess_mwh 1 1 100 100 100 = 1 := by
    have e1 : initial_mwh 1 1 = 1 := by norm_num [initial_mwh]
    have e2 : after_dod_mwh 1 1 100 = 1 := by
      rw [after_dod_mwh, e1, show ((1 : ℚ) / (100 / 100)) = 1 by norm_num,
        round_up_eval 1 10000 (by norm_num) (by norm_num)]
      norm_num
    have e3 : after_rte_mwh 1 1 100 100 = 1 := by
      rw [after_rte_mwh, e2, show ((1 : ℚ) / (100 / 100)) = 1 by norm_num,
        round_up_eval 1 10000 (by norm_num) (by norm_num)]
      norm_num
    rw [required_bess_mwh, after_other_eff_mwh, e3,
      show ((1 : ℚ) / (100 / 100)) = 1 by norm_num,
      round_up_eval 1 10000 (by norm_num) (by norm_num)]
    norm_num
  exact (C9_oversize_bounds 1 1 100 100 100 261 (by norm_num) (by norm_num) (by norm_num)
    (by norm_num) (by norm_num) (by norm_num [battery_capacities])).1 (by rw [hreq]; norm_num)

/-- C4: the best-fit selector returns a row exactly when the requirement is
positive; the returned index is in range and carries the minimum clamped
oversizing `max(oversizing, 0)`, with ties broken by catalog order (every
earlier row is strictly worse). -/
theorem C4_best_fit (req : ℚ) :
    (req ≤ 0 → best_idx req = none) ∧
    (0 < req → ∃ i, best_idx req = some i ∧ i < 3 ∧
      (∀ j, j < 3 → (clipped_oversizes req).getD i 0 ≤ (clipped_oversizes req).getD j 0) ∧
      (∀ j, j < i → (clipped_oversizes req).getD i 0 < (clipped_oversizes req).getD j 0)) := by
  constructor
  · intro h
    rw [best_idx, if_neg (not_lt.mpr h)]
  · intro h
    rw [best_idx, if_pos h,
      show clipped_oversizes req = [max (oversize_mwh req 261) 0,
        max (oversize_mwh req 3727.36) 0, max (oversize_mwh req 5015.9) 0] from rfl]
    set A := max (oversize_mwh req 261) 0 with hA
    set B := max (oversize_mwh req 3727.36) 0 with hB
    set C := max (oversize_mwh req 5015.9) 0 with hC
    rw [idxmin, idxminFrom]
    by_cases hba : B < A
    · rw [if_pos hba, idxminFrom]
      by_cases hcb : C < B
      · rw [if_pos hcb, idxminFrom]
        refine ⟨2, rfl, by norm_num, ?_, ?_⟩
        · intro j hj
          interval_cases j
          · show C ≤ A
            linarith
          · show C ≤ B
            linarith
          · show C ≤ C
            exact le_refl C
        · intro j hj
          interval_cases j
          · show C < A
            linarith
          · show C < B
            exact hcb
      · rw [if_neg hcb, idxminFrom]
        refine ⟨1, rfl, by norm_num, ?_, ?_⟩
        · intro j hj
          interval_cases j
          · show B ≤ A
            linarith
          · show B ≤ B
            exact le_refl B
          · show B ≤ C
            linarith [not_lt.mp hcb]
        · intro j hj
          interval_cases j
          show B < A
          exact hba
    · rw [if_neg hba, idxminFrom]
      by_cases hca : C < A
      · rw [if_pos hca, idxminFrom]
        refine ⟨2, rfl, by norm_num, ?_, ?_⟩
        · intro j hj
          interval_cases j
          · show C ≤ A
            linarith
          · show C ≤ B
            linarith [not_lt.mp hba]
          · show C ≤ C
            exact le_refl C
        · intro j hj
          interval_cases j
          · show C < A
            exact hca
          · show C < B
            have hab := not_lt.mp hba
            linarith
      · rw [if_neg hca, idxminFrom]
        refine ⟨0, rfl, by norm_num, ?_, ?_⟩
        · intro j hj
          interval_cases j
          · show A ≤ A
            exact le_refl A
          · show A ≤ B
            linarith [not_lt.mp hba]
          · show A ≤ C
            linarith [not_lt.mp hca]
        · intro j hj
          exact absurd hj (Nat.not_lt_zero j)

/-- C4 witness: with zero required capacity no row is selected. -/
theorem C4_best_fit_witness : best_idx 0 = none :=
  (C4_best_fit 0).1 (le_refl 0)

/-- C8: the electrical deriver computes
`current_amps = p * 1e6 / (sqrt 3 * v * 1000 * pf)` when both the voltage and
the power factor are positive, `0` otherwise, and in every case
`breaker_amps = current_amps * 1.25`. -/
theorem C8_electrical_deriver (p v pf : ℝ) :
    (0 < v → 0 < pf →
      current_amps p v pf = p * 1000000 / (Real.sqrt 3 * v * 1000 * pf)) ∧
    (¬(0 < v ∧ 0 < pf) → current_amps p v pf = 0) ∧
    breaker_amps p v pf = current_amps p v pf * 1.25 := by
  refine ⟨fun hv hpf => ?_, fun hn => ?_, rfl⟩
  · rw [current_amps, if_pos ⟨hv, hpf⟩]
  · rw [current_amps, if_neg hn]

/-- C8 witness: at `p = v = pf = 1` both positivity hypotheses hold and the
formula and breaker factor are realized. -/
theorem C8_electrical_deriver_witness :
    current_amps 1 1 1 = 1 * 1000000 / (Real.sqrt 3 * 1 * 1000 * 1) ∧
    breaker_amps 1 1 1 = current_amps 1 1 1 * 1.25 :=
  ⟨(C8_electrical_deriver 1 1 1).1 one_pos one_pos, (C8_electrical_deriver 1 1 1).2.2⟩
